import Mathlib

/-!
Verification of the derived-metrics logic and mutation/fetch behavior of the
two CRUD applications in this repository (a habit tracker and a personal
finance dashboard).

Dates are modelled as integer day numbers: the string `yyyy-MM-dd` produced
by `format(date, 'yyyy-MM-dd')` is in bijection with calendar days, and
`subDays(d, i)` subtracts `i` from a day number.  Instants (JavaScript
`Date.getTime()` values) are modelled as integer milliseconds; the instant
of the UTC midnight of day `d` is `d * dayMs`.  Monetary amounts are
modelled as rationals.
-/

namespace HabitStats

/-- One entry of `habit_logs` as consumed by `StatsCards`
(`src/habit-tracker/src/components/stats-cards.tsx`): a calendar date and a
completed flag. -/
structure HabitLog where
  date : Int
  completed : Bool
deriving DecidableEq, Repr

/-- A habit as consumed by `StatsCards`: only its list of logs matters. -/
structure Habit where
  habit_logs : List HabitLog
deriving DecidableEq, Repr

/-- The predicate `log.date === date && log.completed` used throughout
`calculateStats`. -/
def logMatches (day : Int) (log : HabitLog) : Bool :=
  log.date == day && log.completed

/-- The test `habit.habit_logs.some(log => log.date === date && log.completed)`. -/
def habitCompletedOn (day : Int) (h : Habit) : Bool :=
  h.habit_logs.any (logMatches day)

/-- The count `habits.filter(habit => habit.habit_logs.some(...)).length` for a given
day: the number of habits having a completed log on that day. -/
def dayHabitsCount (habits : List Habit) (day : Int) : Nat :=
  (habits.filter (habitCompletedOn day)).length

/-- The test `habits.some(habit => habit.habit_logs.some(...))`: whether any habit has
a completed log on the given day. -/
def anyHabitCompletedOn (day : Int) (habits : List Habit) : Bool :=
  habits.any (habitCompletedOn day)

/-- The streak loop of `calculateStats` (stats-cards.tsx lines 43-56):
starting at offset `i` from today with `fuel` iterations remaining, count
consecutive days with some completion, stopping at the first gap.  The
source pushes each completed day onto `streakDays` and `break`s at the first
incomplete day; the resulting `streakDays.length` is exactly this count. -/
def streakAux (today : Int) (habits : List Habit) : Nat → Nat → Nat
  | _, 0 => 0
  | i, fuel + 1 =>
    if anyHabitCompletedOn (today - (i : Int)) habits then
      1 + streakAux today habits (i + 1) fuel
    else 0

/-- The `currentStreak` of `calculateStats`: the streak loop run for up to 30
days starting at today. -/
def currentStreak (today : Int) (habits : List Habit) : Nat :=
  streakAux today habits 0 30

/-- The `completedToday` of `calculateStats` (stats-cards.tsx lines 38-40). -/
def completedToday (today : Int) (habits : List Habit) : Nat :=
  (habits.filter (habitCompletedOn today)).length

/-- The `totalCompleted` accumulator of the weekly-completion loop
(stats-cards.tsx lines 62-69): over `i = 0..6`, add the number of habits
with a completed log on day `today - i`. -/
def totalCompletedWeek (today : Int) (habits : List Habit) : Nat :=
  (List.range 7).foldl (fun acc (i : Nat) => acc + dayHabitsCount habits (today - (i : Int))) 0

/-- The `totalPossible` accumulator of the weekly-completion loop: over
`i = 0..6`, add `totalHabits`. -/
def totalPossibleWeek (habits : List Habit) : Nat :=
  (List.range 7).foldl (fun acc _ => acc + habits.length) 0

/-- JavaScript `Math.round` on an exact rational: `⌊q + 1/2⌋` (round half
up). -/
def jsRound (q : ℚ) : ℤ :=
  ⌊q + 1 / 2⌋

/-- The `weeklyCompletion` of `calculateStats` (stats-cards.tsx lines 71-73):
`Math.round((totalCompleted / totalPossible) * 100)` when `totalPossible > 0`,
else `0`. -/
def weeklyCompletion (today : Int) (habits : List Habit) : ℤ :=
  let totalPossible := totalPossibleWeek habits
  let totalCompleted := totalCompletedWeek today habits
  if totalPossible > 0 then
    jsRound ((totalCompleted : ℚ) / (totalPossible : ℚ) * 100)
  else 0

/-- The stats record produced by `calculateStats`. -/
structure Stats where
  totalHabits : Nat
  completedToday : Nat
  currentStreak : Nat
  weeklyCompletion : ℤ
deriving DecidableEq, Repr

/-- The `calculateStats` computation of `StatsCards`, as a pure function of today's date and
the habit list. -/
def calculateStats (today : Int) (habits : List Habit) : Stats :=
  { totalHabits := habits.length
    completedToday := completedToday today habits
    currentStreak := currentStreak today habits
    weeklyCompletion := weeklyCompletion today habits }

/-- Spec-side weekly rate, following the specification's words: for each of
the 7 trailing days count the distinct habits with a completed log that day,
sum the counts, divide by (total habit count × 7), round to an integer
percentage; `0` when there are no habits. -/
def specWeeklyRate (today : Int) (habits : List Habit) : ℤ :=
  if habits.length = 0 then 0
  else
    jsRound
      ((((List.range 7).map (fun (i : Nat) => dayHabitsCount habits (today - (i : Int)))).sum : ℚ)
        / ((habits.length * 7 : Nat) : ℚ) * 100)

/-- Spec-side global streak, following the specification's words: the number
of consecutive days `d = 0, 1, 2, …` starting at today (at most 30) on each
of which some habit has a completed log, stopping at the first gap. -/
def specStreak (today : Int) (habits : List Habit) : Nat :=
  ((List.range 30).takeWhile
    (fun (i : Nat) => anyHabitCompletedOn (today - (i : Int)) habits)).length

end HabitStats

namespace HabitList

/-- Milliseconds per day, the divisor `1000 * 60 * 60 * 24` used in
`calculateStreaks` (habit-list component, lines 92-101). -/
def dayMs : Int := 1000 * 60 * 60 * 24

/-- The day difference `Math.floor((currentDate.getTime() - logDate.getTime()) / dayMs)` where
`now` is the instant captured by `new Date()` (in milliseconds) and the log's
date `d` parses to the instant `d * dayMs`.  `Int.fdiv` is floor division. -/
def diffDays (now : Int) (d : Int) : Int :=
  Int.fdiv (now - d * dayMs) dayMs

/-- The inner loop of `calculateStreaks`: the logs are the habit's completed
log dates in descending order (as returned by the query filtered on
`completed = true` and ordered by date descending); for each log, if its
day-difference from `now` equals the running counter, increment, else stop. -/
def streakFromLogs (now : Int) : List Int → Nat → Nat
  | [], streak => streak
  | d :: rest, streak =>
    if diffDays now d = (streak : Int) then
      streakFromLogs now rest (streak + 1)
    else streak

/-- The per-habit streak computed by `calculateStreaks` for one habit, from
its completed log dates in descending order. -/
def calcHabitStreak (now : Int) (logs : List Int) : Nat :=
  streakFromLogs now logs 0

/-- Spec-side per-habit streak: the length of the longest prefix of the log
list in which the `k`-th log's day-difference from `now` is exactly `k`. -/
def specHabitStreak (now : Int) (logs : List Int) : Nat :=
  (logs.enum.takeWhile (fun p => diffDays now p.2 == (p.1 : Int))).length

end HabitList

namespace Finance

/-- Transaction type: the closed two-value enum. -/
inductive TxType where
  | income
  | expense
deriving DecidableEq, Repr

instance : BEq TxType := ⟨fun a b => decide (a = b)⟩

/-- A transaction as consumed by the dashboard totals
(`src/personal-finance-dashboard/src/app/dashboard/page.tsx`, lines 66-74):
only amount and type matter. -/
structure Transaction where
  amount : ℚ
  type : TxType
deriving DecidableEq, Repr

/-- The total `transactions.filter(t => t.type === 'income').reduce((sum, t) => sum + t.amount, 0)`. -/
def totalIncome (ts : List Transaction) : ℚ :=
  ((ts.filter (fun t => t.type == TxType.income)).map Transaction.amount).foldl (· + ·) 0

/-- The total `transactions.filter(t => t.type === 'expense').reduce((sum, t) => sum + t.amount, 0)`. -/
def totalExpenses (ts : List Transaction) : ℚ :=
  ((ts.filter (fun t => t.type == TxType.expense)).map Transaction.amount).foldl (· + ·) 0

/-- The balance, `totalIncome - totalExpenses`. -/
def balance (ts : List Transaction) : ℚ :=
  totalIncome ts - totalExpenses ts

end Finance

namespace Pages

/-- Observable actions performed during a protected page load, in order. -/
inductive Action where
  | getUser
  | queryHabits
  | queryTransactions
  | redirect (path : String)
deriving DecidableEq, Repr

/-- The action trace of `fetchHabits` in the habit tracker's dashboard page:
`supabase.auth.getUser()` first; if there is no user, `router.push('/login')`
and return; otherwise query the `habits` table. -/
def fetchHabitsTrace (user : Option String) : List Action :=
  Action.getUser ::
    match user with
    | none => [Action.redirect "/login"]
    | some _ => [Action.queryHabits]

/-- The action trace of `loadTransactions` in the finance dashboard page
(dashboard/page.tsx lines 24-36): `supabase.auth.getUser()` first; if there
is no user, plain `return` (no redirect); otherwise query the `transactions`
table. -/
def loadTransactionsTrace (user : Option String) : List Action :=
  Action.getUser ::
    match user with
    | none => []
    | some _ => [Action.queryTransactions]

/-- Whether an action is a data query. -/
def Action.isQuery : Action → Bool
  | Action.queryHabits => true
  | Action.queryTransactions => true
  | _ => false

/-- Whether an action is a redirect. -/
def Action.isRedirect : Action → Bool
  | Action.redirect _ => true
  | _ => false

end Pages

namespace Mutations

/-- A toast notification, as issued through `sonner`. -/
inductive Toast where
  | success (msg : String)
  | error (msg : String)
deriving DecidableEq, Repr

/-- One row of the `habit_logs` table (schema.sql): the columns taking part
in the `UNIQUE(habit_id, user_id, date)` constraint, plus the completed
flag. -/
structure LogRow where
  habit_id : String
  user_id : String
  date : Int
  completed : Bool
deriving DecidableEq, Repr

/-- Insert into `habit_logs`, modelling the `UNIQUE(habit_id, user_id, date)`
constraint declared in schema.sql: the insert is rejected with an error when
a row with the same (habit_id, user_id, date) already exists. -/
def dbInsertLog (db : List LogRow) (row : LogRow) : Except String (List LogRow) :=
  if db.any (fun r =>
      r.habit_id == row.habit_id && r.user_id == row.user_id && r.date == row.date) then
    Except.error "duplicate key value violates unique constraint"
  else
    Except.ok (db ++ [row])

/-- Delete from `habit_logs` the rows matching
`.eq('habit_id', habitId).eq('user_id', userId).eq('date', today)`. -/
def dbDeleteLog (db : List LogRow) (habitId userId : String) (today : Int) : List LogRow :=
  db.filter (fun r => !(r.habit_id == habitId && r.user_id == userId && r.date == today))

/-- The in-memory component state that `toggleHabit` may mutate: the
`todayLogs` record (association list keyed by habit id, absent means falsy)
together with the database table backing the requests. -/
structure ToggleState where
  todayLogs : List (String × Bool)
  db : List LogRow
deriving DecidableEq, Repr

/-- The lookup `todayLogs[habitId]` with JavaScript truthiness: an absent key is falsy. -/
def lookupToday (m : List (String × Bool)) (habitId : String) : Bool :=
  (m.lookup habitId).getD false

/-- The spread update of the record at key `habitId` with value `v`: overwrite the
existing entry or add a new one. -/
def setToday (m : List (String × Bool)) (habitId : String) (v : Bool) : List (String × Bool) :=
  if (m.lookup habitId).isSome then
    m.map (fun p => if p.1 == habitId then (p.1, v) else p)
  else
    m ++ [(habitId, v)]

/-- The outcome of one `toggleHabit` call: the state afterwards, the toasts
issued, and whether `calculateStreaks()`/`onUpdate()` were reached. -/
structure ToggleResult where
  state : ToggleState
  toasts : List Toast
  recalculated : Bool
deriving DecidableEq, Repr

/-- The `toggleHabit` handler of the habit-list component (lines 113-155), as a state
transition: if there is no user, return unchanged; if the habit is marked
completed in `todayLogs`, delete today's log row, mark it false and toast
success; otherwise insert a completion row — on a database error the
exception is caught and `toast.error` shows its message, with the in-memory
state untouched and no recalculation; on success mark it true, toast
success, and recalculate. -/
def toggleHabit (user : Option String) (today : Int) (s : ToggleState)
    (habitId : String) : ToggleResult :=
  match user with
  | none => { state := s, toasts := [], recalculated := false }
  | some uid =>
    if lookupToday s.todayLogs habitId then
      { state :=
          { todayLogs := setToday s.todayLogs habitId false
            db := dbDeleteLog s.db habitId uid today }
        toasts := [Toast.success "Habit unchecked for today"]
        recalculated := true }
    else
      match dbInsertLog s.db ⟨habitId, uid, today, true⟩ with
      | Except.error e =>
        { state := s, toasts := [Toast.error e], recalculated := false }
      | Except.ok db₂ =>
        { state :=
            { todayLogs := setToday s.todayLogs habitId true
              db := db₂ }
          toasts := [Toast.success "Great job! Habit completed!"]
          recalculated := true }

/-- The outcome of `handleDelete` in the delete-habit dialog: whether the
dialog is still open, whether the caller's refresh ran, the toasts, and the
loading flag after `finally`. -/
structure DialogResult where
  dialogOpen : Bool
  refreshed : Bool
  toasts : List Toast
  loading : Bool
deriving DecidableEq, Repr

/-- The `handleDelete` handler of `DeleteHabitDialog` (delete-habit-dialog.tsx lines
33-51), parameterised by the result of the `update` request (`some e` is a
failing request with message `e`): on success toast success, run
`onSuccess()` and close; on failure toast the error and leave the dialog
open; `setLoading(false)` runs in `finally` either way. -/
def handleDelete (updateError : Option String) : DialogResult :=
  match updateError with
  | some e =>
    { dialogOpen := true, refreshed := false, toasts := [Toast.error e], loading := false }
  | none =>
    { dialogOpen := false, refreshed := true
      toasts := [Toast.success "Habit archived successfully"], loading := false }

end Mutations

namespace Archive

/-- One row of the `habits` table (schema.sql), with all the columns the
application reads or writes. -/
structure HabitRow where
  id : String
  user_id : String
  name : String
  description : Option String
  category : String
  color : String
  icon : String
  frequency : String
  target_count : Int
  is_archived : Bool
deriving DecidableEq, Repr

/-- The habit-tracker database state touched by archival: the `habits`
table and the `habit_logs` table. -/
structure Db where
  habits : List Archive.HabitRow
  habit_logs : List Mutations.LogRow
deriving DecidableEq, Repr

/-- The `update({ is_archived: true }).eq('id', habitId)` request issued by
`handleDelete` in `DeleteHabitDialog`: every habit row with the given id has
its `is_archived` flag set to true; nothing else changes. -/
def archiveHabit (db : Db) (habitId : String) : Db :=
  { db with
    habits := db.habits.map (fun h =>
      if h.id == habitId then { h with is_archived := true } else h) }

/-- The active-habit fetch of the dashboard page:
`.eq('user_id', uid).eq('is_archived', false)`. -/
def fetchActiveHabits (db : Db) (uid : String) : List HabitRow :=
  db.habits.filter (fun h => h.user_id == uid && h.is_archived == false)

/-- The per-habit log fetch of `calculateStreaks`:
`.eq('habit_id', habitId)` on `habit_logs`. -/
def fetchLogsByHabit (db : Db) (habitId : String) : List Mutations.LogRow :=
  db.habit_logs.filter (fun l => l.habit_id == habitId)

/-- All fields of a habit row other than the archived flag. -/
def HabitRow.core (h : HabitRow) :
    String × String × String × Option String × String × String × String × String × Int :=
  (h.id, h.user_id, h.name, h.description, h.category, h.color, h.icon,
    h.frequency, h.target_count)

end Archive

namespace HabitStats

lemma range7_eq : List.range 7 = [0, 1, 2, 3, 4, 5, 6] := by decide

lemma totalPossibleWeek_eq (hs : List Habit) : totalPossibleWeek hs = 7 * hs.length := by
  simp [totalPossibleWeek, range7_eq, List.foldl_cons, List.foldl_nil]
  omega

lemma totalCompletedWeek_eq (t : Int) (hs : List Habit) :
    totalCompletedWeek t hs
      = ((List.range 7).map (fun (i : Nat) => dayHabitsCount hs (t - (i : Int)))).sum := by
  simp [totalCompletedWeek, range7_eq, List.foldl_cons, List.foldl_nil, List.sum_cons]
  omega

lemma streakAux_le (t : Int) (hs : List Habit) :
    ∀ fuel i, streakAux t hs i fuel ≤ fuel := by
  intro fuel
  induction fuel with
  | zero => intro i; simp [streakAux]
  | succ n ih =>
    intro i
    simp only [streakAux]
    split
    · have := ih (i + 1); omega
    · omega

lemma streakAux_eq_takeWhile (t : Int) (hs : List Habit) :
    ∀ fuel i, streakAux t hs i fuel
      = ((List.range' i fuel).takeWhile
          (fun (j : Nat) => anyHabitCompletedOn (t - (j : Int)) hs)).length := by
  intro fuel
  induction fuel with
  | zero => intro i; simp [streakAux]
  | succ n ih =>
    intro i
    rw [List.range'_succ]
    by_cases h : anyHabitCompletedOn (t - (i : Int)) hs
    · simp only [streakAux, h, if_true, List.takeWhile_cons, List.length_cons, ih (i + 1)]
      omega
    · simp [streakAux, h, List.takeWhile_cons]

lemma streakAux_stops (t : Int) (hs : List Habit) (stop : Nat)
    (h1 : ∀ j : Nat, j < stop → anyHabitCompletedOn (t - (j : Int)) hs = true)
    (h2 : anyHabitCompletedOn (t - (stop : Int)) hs = false) :
    ∀ fuel i, i ≤ stop → stop - i < fuel → streakAux t hs i fuel = stop - i := by
  intro fuel
  induction fuel with
  | zero => intro i _ hlt; omega
  | succ n ih =>
    intro i hle hlt
    by_cases hi : i = stop
    · subst hi
      simp [streakAux, h2]
    · have hcond := h1 i (by omega)
      simp only [streakAux, hcond, if_true]
      rw [ih (i + 1) (by omega) (by omega)]
      omega

end HabitStats

open HabitStats in
/-- C2: the global current streak equals the number of consecutive days
starting at today on each of which some habit has a completed log (stopping
at the first gap, looking back at most 30 days); with completions on
{today, today-1, today-2} and a gap at today-3 it is exactly 3; and it never
exceeds 30. -/
theorem C2_current_streak (today : Int) (habits : List Habit) :
    (calculateStats today habits).currentStreak = specStreak today habits
    ∧ (calculateStats today habits).currentStreak ≤ 30
    ∧ (calculateStats today
        [⟨[⟨today, true⟩, ⟨today - 1, true⟩, ⟨today - 2, true⟩]⟩]).currentStreak = 3 := by
  refine ⟨?_, ?_, ?_⟩
  · show currentStreak today habits = specStreak today habits
    rw [currentStreak, specStreak, List.range_eq_range', streakAux_eq_takeWhile]
  · exact streakAux_le today habits 30 0
  · show currentStreak today _ = 3
    have h1 : ∀ j : Nat, j < 3 → anyHabitCompletedOn (today - (j : Int))
        [⟨[⟨today, true⟩, ⟨today - 1, true⟩, ⟨today - 2, true⟩]⟩] = true := by
      intro j hj
      rcases j with _ | _ | _ | j
      · simp [anyHabitCompletedOn, habitCompletedOn, logMatches]
      · simp [anyHabitCompletedOn, habitCompletedOn, logMatches]
      · simp [anyHabitCompletedOn, habitCompletedOn, logMatches]
      · omega
    have h2 : anyHabitCompletedOn (today - ((3 : Nat) : Int))
        [⟨[⟨today, true⟩, ⟨today - 1, true⟩, ⟨today - 2, true⟩]⟩] = false := by
      rw [Bool.eq_false_iff]
      intro hcontra
      simp [anyHabitCompletedOn, habitCompletedOn, logMatches, List.any_eq_true,
        beq_iff_eq] at hcontra
      omega
    have := streakAux_stops today _ 3 h1 h2 30 0 (by omega) (by omega)
    simpa [currentStreak] using this

open HabitStats in
/-- C1: the weekly completion rate equals the 7-trailing-day sum of
per-day counts of habits with a completed log, divided by
(total habit count × 7), as a rounded integer percentage, and it is 0 when
there are no habits (no division by zero occurs). -/
theorem C1_weekly_rate (today : Int) (habits : List Habit) :
    (calculateStats today habits).weeklyCompletion = specWeeklyRate today habits
    ∧ (calculateStats today []).weeklyCompletion = 0 := by
  constructor
  · show weeklyCompletion today habits = specWeeklyRate today habits
    rw [weeklyCompletion, specWeeklyRate]
    by_cases hL : habits.length = 0
    · simp [totalPossibleWeek_eq, hL]
    · have hp : totalPossibleWeek habits > 0 := by
        rw [totalPossibleWeek_eq]; omega
      rw [if_pos hp, if_neg hL, totalCompletedWeek_eq, totalPossibleWeek_eq]
      norm_num [Nat.mul_comm]
  · rfl

open HabitStats in
/-- C5: `completedToday` counts the habits having at least one log dated
today with the completed flag true, and is at most `totalHabits`. -/
theorem C5_completed_today (today : Int) (habits : List Habit) :
    (calculateStats today habits).completedToday
      = habits.countP
          (fun h => decide (∃ l ∈ h.habit_logs, l.date = today ∧ l.completed = true))
    ∧ (calculateStats today habits).completedToday
        ≤ (calculateStats today habits).totalHabits := by
  constructor
  · show completedToday today habits = _
    rw [completedToday, List.countP_eq_length_filter]
    congr 1
    apply List.filter_congr
    intro h _
    apply Bool.coe_iff_coe.mp
    simp [habitCompletedOn, logMatches, List.any_eq_true, beq_iff_eq]
  · exact List.length_filter_le _ _

open HabitStats in
/-- C10: the global current streak is at least 1 iff `completedToday` is at
least 1; equivalently the streak is 0 exactly when no habit has a completed
log dated today. -/
theorem C10_streak_iff_completed_today (today : Int) (habits : List Habit) :
    (1 ≤ (calculateStats today habits).currentStreak
        ↔ 1 ≤ (calculateStats today habits).completedToday)
    ∧ ((calculateStats today habits).currentStreak = 0
        ↔ anyHabitCompletedOn today habits = false) := by
  have hstep : currentStreak today habits
      = if anyHabitCompletedOn (today - ((0 : Nat) : Int)) habits then
          1 + streakAux today habits 1 29
        else 0 := rfl
  have h0 : today - ((0 : Nat) : Int) = today := by simp
  rw [h0] at hstep
  constructor
  · show 1 ≤ currentStreak today habits ↔ 1 ≤ completedToday today habits
    rw [hstep, completedToday, ← List.countP_eq_length_filter]
    constructor
    · intro hs
      by_cases hc : anyHabitCompletedOn today habits
      · have : ∃ h ∈ habits, habitCompletedOn today h = true :=
          List.any_eq_true.mp hc
        have := List.countP_pos_iff.mpr this
        omega
      · rw [if_neg hc] at hs; omega
    · intro hc
      have hex : ∃ h ∈ habits, habitCompletedOn today h = true :=
        List.countP_pos_iff.mp (by omega)
      have hc2 : anyHabitCompletedOn today habits = true := List.any_eq_true.mpr hex
      rw [hc2]
      simp
  · show currentStreak today habits = 0 ↔ _
    rw [hstep]
    by_cases hc : anyHabitCompletedOn today habits
    · simp [hc]
    · simp [hc]

namespace HabitStats

lemma totalCompletedWeek_le (t : Int) (hs : List Habit) :
    totalCompletedWeek t hs ≤ totalPossibleWeek hs := by
  have hd : ∀ d : Int, dayHabitsCount hs d ≤ hs.length :=
    fun d => List.length_filter_le _ _
  rw [totalPossibleWeek_eq]
  simp only [totalCompletedWeek, range7_eq, List.foldl_cons, List.foldl_nil]
  have h0 := hd (t - ((0 : Nat) : Int))
  have h1 := hd (t - ((1 : Nat) : Int))
  have h2 := hd (t - ((2 : Nat) : Int))
  have h3 := hd (t - ((3 : Nat) : Int))
  have h4 := hd (t - ((4 : Nat) : Int))
  have h5 := hd (t - ((5 : Nat) : Int))
  have h6 := hd (t - ((6 : Nat) : Int))
  omega

lemma jsRound_nonneg {q : ℚ} (hq : 0 ≤ q) : 0 ≤ jsRound q := by
  rw [jsRound]
  rw [Int.le_floor]
  push_cast
  linarith

lemma jsRound_le_100 {q : ℚ} (hq : q ≤ 100) : jsRound q ≤ 100 := by
  rw [jsRound]
  have : (⌊q + 1 / 2⌋ : ℤ) < 101 := by
    rw [Int.floor_lt]
    push_cast
    linarith
  omega

end HabitStats

open HabitStats in
/-- C6: the weekly completion percentage always lies in [0, 100], and equals
exactly 0 when the total habit count is 0. -/
theorem C6_weekly_bounds (today : Int) (habits : List Habit) :
    0 ≤ (calculateStats today habits).weeklyCompletion
    ∧ (calculateStats today habits).weeklyCompletion ≤ 100
    ∧ ((calculateStats today habits).totalHabits = 0 →
        (calculateStats today habits).weeklyCompletion = 0) := by
  have hcore : 0 ≤ weeklyCompletion today habits ∧ weeklyCompletion today habits ≤ 100 := by
    rw [weeklyCompletion]
    by_cases hp : totalPossibleWeek habits > 0
    · simp only [hp, if_true]
      have hle := totalCompletedWeek_le today habits
      have hq0 : (0 : ℚ) ≤ (totalCompletedWeek today habits : ℚ)
          / (totalPossibleWeek habits : ℚ) * 100 := by
        positivity
      have hq1 : (totalCompletedWeek today habits : ℚ)
          / (totalPossibleWeek habits : ℚ) * 100 ≤ 100 := by
        have hples : (totalCompletedWeek today habits : ℚ)
            / (totalPossibleWeek habits : ℚ) ≤ 1 := by
          rw [div_le_one (by exact_mod_cast hp)]
          exact_mod_cast hle
        linarith
      exact ⟨jsRound_nonneg hq0, jsRound_le_100 hq1⟩
    · simp [hp]
  refine ⟨hcore.1, hcore.2, ?_⟩
  intro hzero
  have hlen : habits.length = 0 := hzero
  show weeklyCompletion today habits = 0
  rw [weeklyCompletion]
  simp [totalPossibleWeek_eq, hlen]

/-- Witness for C6 at a concrete input: with no habits the weekly completion
is exactly 0. -/
theorem C6_weekly_bounds_witness : (HabitStats.calculateStats 0 []).weeklyCompletion = 0 :=
  (C6_weekly_bounds 0 []).2.2 rfl

open Finance in
/-- C4: the income total is the sum of income amounts, the expense total is
the sum of expense amounts, the balance is their difference, and on
[{100, income}, {40, expense}, {10, expense}] the totals are income=100,
expense=50, balance=50. -/
theorem C4_totals (ts : List Finance.Transaction) :
    totalIncome ts = ((ts.filter (fun t => t.type == TxType.income)).map
        Transaction.amount).sum
    ∧ totalExpenses ts = ((ts.filter (fun t => t.type == TxType.expense)).map
        Transaction.amount).sum
    ∧ balance ts = totalIncome ts - totalExpenses ts
    ∧ totalIncome [⟨100, TxType.income⟩, ⟨40, TxType.expense⟩, ⟨10, TxType.expense⟩] = 100
    ∧ totalExpenses [⟨100, TxType.income⟩, ⟨40, TxType.expense⟩, ⟨10, TxType.expense⟩] = 50
    ∧ balance [⟨100, TxType.income⟩, ⟨40, TxType.expense⟩, ⟨10, TxType.expense⟩] = 50 := by
  refine ⟨?_, ?_, rfl, ?_, ?_, ?_⟩
  · rw [totalIncome, List.sum_eq_foldl]
  · rw [totalExpenses, List.sum_eq_foldl]
  · norm_num [totalIncome, List.filter, Transaction.amount, List.foldl]
  · norm_num [totalExpenses, List.filter, Transaction.amount, List.foldl]
  · norm_num [balance, totalIncome, totalExpenses, List.filter, Transaction.amount, List.foldl]

namespace HabitList

lemma dayMs_pos : (0 : Int) < dayMs := by norm_num [dayMs]

lemma diffDays_shift (now k : Int) :
    diffDays now (Int.fdiv now dayMs - k) = k := by
  rw [diffDays, Int.fdiv_eq_ediv _ (le_of_lt dayMs_pos), Int.fdiv_eq_ediv _ (le_of_lt dayMs_pos)]
  have h : now - (now / dayMs - k) * dayMs = now + (k - now / dayMs) * dayMs := by ring
  rw [h, Int.add_mul_ediv_right _ _ (ne_of_gt dayMs_pos)]
  ring

lemma streakFromLogs_eq (now : Int) :
    ∀ (logs : List Int) (s : Nat),
      streakFromLogs now logs s
        = s + ((List.enumFrom s logs).takeWhile
            (fun p => diffDays now p.2 == (p.1 : Int))).length := by
  intro logs
  induction logs with
  | nil => intro s; simp [streakFromLogs]
  | cons d rest ih =>
    intro s
    rw [streakFromLogs, List.enumFrom_cons, List.takeWhile_cons]
    by_cases h : diffDays now d = (s : Int)
    · rw [if_pos h]
      have hb : (diffDays now (s, d).2 == ((s, d).1 : Int)) = true := by
        simpa [beq_iff_eq] using h
      rw [hb, if_pos rfl, List.length_cons, ih (s + 1)]
      omega
    · rw [if_neg h]
      have hb : (diffDays now (s, d).2 == ((s, d).1 : Int)) = false := by
        simpa [beq_iff_eq] using h
      rw [hb]
      simp

end HabitList

open HabitList in
/-- C3: the per-habit streak walks the completed logs in descending date
order, incrementing the counter whenever the log's day-difference from the
reference instant `now` equals the counter and stopping otherwise; for a
habit whose completed logs are exactly today and yesterday (today being the
calendar day of `now`), the streak is 2. -/
theorem C3_per_habit_streak (now : Int) (logs : List Int) :
    calcHabitStreak now logs = specHabitStreak now logs
    ∧ calcHabitStreak now [Int.fdiv now dayMs, Int.fdiv now dayMs - 1] = 2 := by
  constructor
  · rw [calcHabitStreak, specHabitStreak, streakFromLogs_eq, List.enum]
    omega
  · rw [calcHabitStreak, streakFromLogs]
    have h0 : diffDays now (Int.fdiv now dayMs) = ((0 : Nat) : Int) := by
      simpa using diffDays_shift now 0
    rw [if_pos h0, streakFromLogs]
    have h1 : diffDays now (Int.fdiv now dayMs - 1) = ((1 : Nat) : Int) := by
      simpa using diffDays_shift now 1
    rw [if_pos h1, streakFromLogs]

open Pages in
/-- C7 (counterexample): in the finance dashboard, when the identity fetch
yields no user, `loadTransactions` returns without issuing any client-side
redirect to the login view, refuting the claim that both pages redirect. -/
theorem C7_counterexample :
    (Pages.loadTransactionsTrace none).any Pages.Action.isRedirect = false := by
  decide

open Pages in
/-- C7 (amended): on both protected pages the identity fetch is the first
action; when it yields no user neither page performs a data query; the habit
tracker then redirects to the login view, while the finance dashboard merely
returns without redirecting. -/
theorem C7_auth_gate (user : Option String) :
    (fetchHabitsTrace user).head? = some Action.getUser
    ∧ (loadTransactionsTrace user).head? = some Action.getUser
    ∧ fetchHabitsTrace none = [Action.getUser, Action.redirect "/login"]
    ∧ loadTransactionsTrace none = [Action.getUser]
    ∧ (fetchHabitsTrace none).any Action.isQuery = false
    ∧ (loadTransactionsTrace none).any Action.isQuery = false := by
  refine ⟨?_, ?_, rfl, rfl, rfl, rfl⟩
  · cases user <;> rfl
  · cases user <;> rfl

open Mutations in
/-- C8: when the insert of a completion log fails (here because a log for the
same habit/user/date already exists, rejected by the uniqueness constraint),
`toggleHabit` catches the error and surfaces it as an error toast, the
in-memory state (today's completion map and the database) is left unchanged
and no streak recalculation runs; and a failing delete-dialog request leaves
the dialog open and does not refresh. -/
theorem C8_failed_write (uid habitId : String) (today : Int) (s : Mutations.ToggleState)
    (hmap : Mutations.lookupToday s.todayLogs habitId = false)
    (hdup : s.db.any (fun r =>
        r.habit_id == habitId && r.user_id == uid && r.date == today) = true) :
    (Mutations.toggleHabit (some uid) today s habitId).state = s
    ∧ (Mutations.toggleHabit (some uid) today s habitId).recalculated = false
    ∧ (Mutations.toggleHabit (some uid) today s habitId).toasts
        = [Mutations.Toast.error "duplicate key value violates unique constraint"]
    ∧ (∀ e, (Mutations.handleDelete (some e)).dialogOpen = true
        ∧ (Mutations.handleDelete (some e)).refreshed = false) := by
  have hinsert : Mutations.dbInsertLog s.db ⟨habitId, uid, today, true⟩
      = Except.error "duplicate key value violates unique constraint" := by
    rw [Mutations.dbInsertLog, if_pos]
    exact hdup
  have htoggle : Mutations.toggleHabit (some uid) today s habitId
      = { state := s
          toasts := [Mutations.Toast.error "duplicate key value violates unique constraint"]
          recalculated := false } := by
    rw [Mutations.toggleHabit]
    simp only [hmap, Bool.false_eq_true, if_false, hinsert]
  rw [htoggle]
  exact ⟨rfl, rfl, rfl, fun e => ⟨rfl, rfl⟩⟩

open Mutations in
/-- Witness for C8 at a concrete input: one habit `h`, user `u`, an empty
completion map and a database already holding the (h, u, day 0) log. -/
theorem C8_failed_write_witness :
    (Mutations.toggleHabit (some "u") 0 ⟨[], [⟨"h", "u", 0, true⟩]⟩ "h").state
        = (⟨[], [⟨"h", "u", 0, true⟩]⟩ : Mutations.ToggleState)
    ∧ (Mutations.toggleHabit (some "u") 0 ⟨[], [⟨"h", "u", 0, true⟩]⟩ "h").recalculated
        = false :=
  let h := C8_failed_write "u" "h" 0 ⟨[], [⟨"h", "u", 0, true⟩]⟩ rfl (by decide)
  ⟨h.1, h.2.1⟩

open Archive in
/-- C9: archiving a habit is a soft delete: the `habit_logs` table is
untouched, every field of every habit row except `is_archived` is preserved,
the archived habit carries `is_archived = true` and is absent from a
subsequent fetch of active (non-archived) habits, while its logs remain
retrievable by habit id exactly as before. -/
theorem C9_archive_soft_delete (db : Archive.Db) (habitId uid : String) :
    (Archive.archiveHabit db habitId).habit_logs = db.habit_logs
    ∧ (Archive.archiveHabit db habitId).habits.map Archive.HabitRow.core
        = db.habits.map Archive.HabitRow.core
    ∧ (∀ h ∈ Archive.fetchActiveHabits (Archive.archiveHabit db habitId) uid,
        h.id ≠ habitId)
    ∧ Archive.fetchLogsByHabit (Archive.archiveHabit db habitId) habitId
        = Archive.fetchLogsByHabit db habitId
    ∧ (∀ h ∈ (Archive.archiveHabit db habitId).habits,
        h.id = habitId → h.is_archived = true) := by
  refine ⟨rfl, ?_, ?_, rfl, ?_⟩
  · rw [Archive.archiveHabit]
    simp only [List.map_map]
    apply List.map_congr_left
    intro h _
    by_cases hid : h.id == habitId
    · simp [Function.comp, hid, Archive.HabitRow.core]
    · simp [Function.comp, hid, Archive.HabitRow.core]
  · intro h hmem
    rw [Archive.fetchActiveHabits, Archive.archiveHabit] at hmem
    rcases List.mem_filter.mp hmem with ⟨hmem2, hcond⟩
    rcases List.mem_map.mp hmem2 with ⟨h0, _, heq⟩
    by_cases hid : h0.id == habitId
    · rw [if_pos hid] at heq
      subst heq
      simp at hcond
    · rw [if_neg hid] at heq
      subst heq
      simpa using hid
  · intro h hmem hid
    rw [Archive.archiveHabit] at hmem
    rcases List.mem_map.mp hmem with ⟨h0, _, heq⟩
    by_cases hid0 : h0.id == habitId
    · rw [if_pos hid0] at heq
      subst heq
      rfl
    · rw [if_neg hid0] at heq
      subst heq
      exact absurd (by simpa using hid) (by simpa using hid0)

open Archive in
/-- Witness for C9 at a concrete input: a single habit `h1` owned by `u`
with one log; after archiving, the habit row is flagged archived, the active
fetch is empty and the log fetch is unchanged. -/
theorem C9_archive_soft_delete_witness :
    (Archive.archiveHabit
        ⟨[⟨"h1", "u", "run", none, "Health", "#fff", "x", "daily", 1, false⟩],
          [⟨"h1", "u", 0, true⟩]⟩ "h1").habit_logs = [⟨"h1", "u", 0, true⟩]
    ∧ Archive.fetchLogsByHabit
        (Archive.archiveHabit
          ⟨[⟨"h1", "u", "run", none, "Health", "#fff", "x", "daily", 1, false⟩],
            [⟨"h1", "u", 0, true⟩]⟩ "h1") "h1"
        = Archive.fetchLogsByHabit
            ⟨[⟨"h1", "u", "run", none, "Health", "#fff", "x", "daily", 1, false⟩],
              [⟨"h1", "u", 0, true⟩]⟩ "h1" :=
  let h := C9_archive_soft_delete
    ⟨[⟨"h1", "u", "run", none, "Health", "#fff", "x", "daily", 1, false⟩],
      [⟨"h1", "u", 0, true⟩]⟩ "h1" "u"
  ⟨h.1, h.2.2.2.1⟩
